import Mathlib

/-!
Shallow embedding of the MoE routing logger and its offline analyzer.

Source files embedded here:
* `vllm/model_executor/layers/fused_moe/moe_logger.py` — class `MoELogger`
  (`__init__`, `write_meta_header`, `log_routing`).
* `plot_expert_hist.py` — `read_moe_log`, `analyze_expert_usage`,
  `calculate_metrics`.

Modelling conventions:
* The JSONL stream is modelled at the level of parsed records (`LogLine`):
  `json.dumps` / `json.loads` are treated as mutually inverse on structured
  records, so a written line is the record itself.  A line whose `type` tag
  is neither `"meta"` nor `"route"` is `LogLine.other`.
* Tensor data arrives in `log_routing` already converted by
  `.detach().cpu().tolist()`; we model the result of that conversion as
  `List (List Nat)` (expert ids) and `List (List Rat)` (weights).  Weights
  are exact rationals; Python's `round(w, 6)` is modelled as
  round-half-to-even at six decimal places over `Rat`.
* The file handle is modelled by `hasHandle` plus the `output` buffer of
  lines written so far.  Fallible primitives (tensor conversion, each
  `write`, `flush`, opening the file) are modelled by injected failure
  flags; an operation returns `Except String MoELogger`, where an `error`
  result would mean a Python exception escaping to the caller.
* `calculate_metrics` returns `Option Metrics × List Rat`; `none` models
  the literal empty dict `{}` returned on the zero-data path.  The
  floating-point entropy fields (`shannon_entropy_bits`, obtained from
  `scipy.stats.entropy`, `max_entropy_bits`, `normalized_entropy`) are
  numeric transcendental quantities computed in binary floating point and
  are not modelled; no claim below depends on their values, only on which
  fields exist on the zero-data path and on the top-3 ranking.
-/

/-- The `"meta"` header record (`moe_logger.py`, `write_meta_header`). -/
structure MetaRecord where
  model_id : String
  vllm_version : String
  torch_version : String
  device : String
  seed : Option Int
  layers_logged : List Int
  top_k : Nat
  num_experts : Nat
deriving DecidableEq

/-- One `"route"` record (`moe_logger.py`, `log_routing` write loop). -/
structure RouteRecord where
  req_id : String
  token_idx : Nat
  layer : Int
  topk_ids : List Nat
  topk_weights : List Rat
deriving DecidableEq

/-- One parsed line of the JSONL stream, discriminated by its `type` tag.
`other` stands for a parseable line whose tag is neither `"meta"` nor
`"route"`. -/
inductive LogLine where
  | meta (m : MetaRecord)
  | route (r : RouteRecord)
  | other
deriving DecidableEq

/-- Round a rational to the nearest integer, ties to even — the rounding
mode of Python's builtin `round`. -/
def roundHalfEven (q : Rat) : Int :=
  if q - Rat.floor q < 1/2 then Rat.floor q
  else if 1/2 < q - Rat.floor q then Rat.floor q + 1
  else if Rat.floor q % 2 = 0 then Rat.floor q else Rat.floor q + 1

/-- Python's `round(w, 6)` in `log_routing`, over exact rationals. -/
def round6 (w : Rat) : Rat :=
  Rat.divInt (roundHalfEven (w * 1000000)) 1000000

/-- State of a `MoELogger` instance.  `hasHandle` models
`file_handle is not None`; `output` is the content written to the stream
so far (as parsed records). -/
structure MoELogger where
  enabled : Bool
  hasHandle : Bool
  logged_layer : Int
  request_counter : Nat
  output : List LogLine
deriving DecidableEq

/-- Python `int(s)` on the `VLLM_LOG_MOE_LAYER` string; `none` models the
`ValueError` branch, which falls back to layer 0 with a warning.
Approximate at the margins: Python's `int()` also accepts surrounding
whitespace, a leading `+`, underscore separators and unicode digits,
which `String.toInt?` rejects; no theorem below depends on the
layer-string parse. -/
def pyInt (s : String) : Option Int :=
  s.toInt?

/-- Model of `MoELogger.__init__`.  `logPath` is `os.environ.get("VLLM_LOG_MOE", "")`
(absent maps to `""`), `layerStr` is
`os.environ.get("VLLM_LOG_MOE_LAYER", "0")`, and `openFails` injects a
failure of `open(log_path, "w")`, whose `except` branch degrades to
`enabled = False` with no handle (the layer configuration inside the
`try` is then never reached, leaving the default 0). -/
def MoELogger.init (logPath : String) (layerStr : String)
    (openFails : Bool) : MoELogger :=
  if logPath = "" then ⟨false, false, 0, 0, []⟩
  else if openFails then ⟨false, false, 0, 0, []⟩
  else ⟨true, true, (pyInt layerStr).getD 0, 0, []⟩

/-- The meta dict built in `write_meta_header`.  `vllmVer` / `torchVer` are
the results of the version lookups; `none` models the bare-`except`
fallback to `"unknown"`. -/
def mkMeta (l : MoELogger) (model_id : String) (top_k : Nat)
    (num_experts : Nat) (device : String) (seed : Option Int)
    (vllmVer torchVer : Option String) : MetaRecord :=
  { model_id := model_id
    vllm_version := vllmVer.getD "unknown"
    torch_version := torchVer.getD "unknown"
    device := device
    seed := seed
    layers_logged := [l.logged_layer]
    top_k := top_k
    num_experts := num_experts }

/-- Body of the `try` block of `write_meta_header`: one `write` of the meta
line followed by a `flush`.  Returns the state after the block together
with the exception, if one was raised inside it. -/
def writeHeaderAttempt (l : MoELogger) (meta : MetaRecord)
    (writeFails flushFails : Bool) : MoELogger × Option String :=
  if writeFails then (l, some "write failed")
  else
    let l2 : MoELogger := { l with output := l.output ++ [LogLine.meta meta] }
    if flushFails then (l2, some "flush failed") else (l2, none)

/-- Model of `MoELogger.write_meta_header`.  The guard returns early when disabled
or without a handle; the `try ... except Exception` around the write means
any raised exception is logged and the method returns normally, so the
result is always `Except.ok`. -/
def MoELogger.write_meta_header (l : MoELogger) (model_id : String)
    (top_k : Nat) (num_experts : Nat) (device : String) (seed : Option Int)
    (vllmVer torchVer : Option String)
    (writeFails flushFails : Bool) : Except String MoELogger :=
  if !l.enabled || !l.hasHandle then Except.ok l
  else
    Except.ok (writeHeaderAttempt l
      (mkMeta l model_id top_k num_experts device seed vllmVer torchVer)
      writeFails flushFails).fst

/-- Injected failures for `log_routing`: `convFails` models
`.detach().cpu().tolist()` raising; `writeFailAt = some k` models the
`write` of the k-th record in the loop raising; `flushFails` models the
final `flush` raising. -/
structure LogErr where
  convFails : Bool
  writeFailAt : Option Nat
  flushFails : Bool
deriving DecidableEq

/-- No injected failure. -/
def noErr : LogErr :=
  ⟨false, none, false⟩

/-- The `for token_idx in range(num_tokens)` write loop of `log_routing`.
Iterates over the rows of `topk_ids`; the matching weights row is fetched
by index (an out-of-range index models Python's `IndexError`, raised while
building the record).  Returns the lines actually written before any
failure, plus the exception if one was raised. -/
def writeLoop (rid : String) (layer : Int) (ws : List (List Rat)) :
    List (List Nat) → Nat → Option Nat → List LogLine × Option String
  | [], _, _ => ([], none)
  | idsRow :: rest, idx, failAt =>
    match ws[idx]? with
    | none => ([], some "IndexError")
    | some wsRow =>
      match failAt with
      | some 0 => ([], some "write failed")
      | _ =>
        let line := LogLine.route
          ⟨rid, idx, layer, idsRow, wsRow.map round6⟩
        let next := writeLoop rid layer ws rest (idx + 1)
          (failAt.map (fun n => n - 1))
        (line :: next.fst, next.snd)

/-- Body of the `try` block of `log_routing`: tensor conversion, request-id
minting (incrementing the counter only when no id was supplied), the write
loop, and the final flush.  Returns the state reached when the block ends
(normally or by raising) together with the raised exception, if any. -/
def logRoutingAttempt (l : MoELogger) (layer_idx : Int)
    (topk_ids : List (List Nat)) (topk_weights : List (List Rat))
    (req_id : Option String) (e : LogErr) : MoELogger × Option String :=
  if e.convFails then (l, some "tolist failed")
  else
    let rid := req_id.getD ("r" ++ toString l.request_counter)
    let counter :=
      if req_id.isNone then l.request_counter + 1 else l.request_counter
    let loop := writeLoop rid layer_idx topk_weights topk_ids 0 e.writeFailAt
    let l2 : MoELogger :=
      { l with request_counter := counter, output := l.output ++ loop.fst }
    match loop.snd with
    | some err => (l2, some err)
    | none => if e.flushFails then (l2, some "flush failed") else (l2, none)

/-- Model of `MoELogger.log_routing`.  Early returns when disabled, without a
handle, or at a layer other than the configured one; otherwise the whole
body sits in `try ... except Exception`, so every raised exception is
logged and the method returns normally: the result is always
`Except.ok`. -/
def MoELogger.log_routing (l : MoELogger) (layer_idx : Int)
    (topk_ids : List (List Nat)) (topk_weights : List (List Rat))
    (req_id : Option String) (e : LogErr) : Except String MoELogger :=
  if !l.enabled || !l.hasHandle then Except.ok l
  else if layer_idx != l.logged_layer then Except.ok l
  else Except.ok (logRoutingAttempt l layer_idx topk_ids topk_weights
    req_id e).fst

/-- Loop body of `read_moe_log`: keep the most recently seen meta record,
append route records in order, skip lines with any other tag. -/
def readStep (acc : Option MetaRecord × List RouteRecord) (line : LogLine) :
    Option MetaRecord × List RouteRecord :=
  match line with
  | LogLine.meta m => (some m, acc.snd)
  | LogLine.route r => (acc.fst, acc.snd ++ [r])
  | LogLine.other => acc

/-- Model of `read_moe_log` (`plot_expert_hist.py`): fold `readStep` over the lines
of the stream, starting from `meta = None`, `routes = []`. -/
def read_moe_log (lines : List LogLine) :
    Option MetaRecord × List RouteRecord :=
  lines.foldl readStep (none, [])

/-- The last meta record of a stream, if any (later lines win). -/
def lastMeta : List LogLine → Option MetaRecord
  | [] => none
  | line :: rest =>
    (lastMeta rest).or
      (match line with
       | LogLine.meta m => some m
       | _ => none)

/-- The route records of a stream, in order. -/
def routeLines (lines : List LogLine) : List RouteRecord :=
  lines.filterMap
    (fun line =>
      match line with
      | LogLine.route r => some r
      | _ => none)

/-- The flattening loop of `analyze_expert_usage`:
`all_expert_ids.extend(route["topk_ids"])` over all routes. -/
def allExpertIds (routes : List RouteRecord) : List Nat :=
  routes.foldl (fun acc r => acc ++ r.topk_ids) []

/-- Python `max` over a (nonempty, in use) list of naturals. -/
def maxExpertId (ids : List Nat) : Nat :=
  ids.foldl max 0

/-- Model of `analyze_expert_usage`: the dense histogram
`[expert_counts.get(i, 0) for i in range(num_experts)]` with
`num_experts = max(all_expert_ids) + 1 if all_expert_ids else 0`. -/
def analyze_expert_usage (routes : List RouteRecord) : List Nat :=
  let ids := allExpertIds routes
  let num_experts := if ids.isEmpty then 0 else maxExpertId ids + 1
  (List.range num_experts).map (fun i => ids.count i)

/-- Comparison used by the model's argsort: smaller value first, equal
values in ascending index order.  Caveat on tie order: `np.argsort`'s
default kind (`quicksort`, an introsort) is documented as NOT stable, so
for arrays longer than numpy's 16-element insertion-sort cutoff the
relative order of equal values is unspecified; on shorter arrays numpy
falls through to insertion sort, whose output is exactly this
ascending-index tie order.  The tie rule here is therefore only one
admissible determinization of the code's behavior, and the theorems
below use it only through facts that are insensitive to tie order
(the output is sorted by value) or through concrete arrays of at most 16
elements, where it coincides with what numpy actually does. -/
def argsortLe (xs : List Nat) (i j : Nat) : Bool :=
  decide (xs.getD i 0 < xs.getD j 0) ||
    (xs.getD i 0 == xs.getD j 0 && decide (i ≤ j))

/-- Model of `np.argsort(expert_usage)`: the indices `0 .. len-1` sorted
by ascending value, ties determinized as described at `argsortLe`. -/
def argsort (xs : List Nat) : List Nat :=
  List.insertionSort (fun i j => argsortLe xs i j = true)
    (List.range xs.length)

/-- Model of `np.argsort(expert_usage)[-3:][::-1]`: the last three indices of the
ascending argsort, reversed. -/
def top3Indices (u : List Nat) : List Nat :=
  ((argsort u).drop ((argsort u).length - 3)).reverse

/-- The metrics dict built by `calculate_metrics` on the nonzero path.
The floating-point entropy fields are not modelled (see the module
docstring); the remaining fields are exact. -/
structure Metrics where
  top_3_experts : List (Nat × Nat × Rat)
  total_selections : Nat
  num_experts : Nat
deriving DecidableEq

/-- Model of `calculate_metrics`: returns `(none, [])` — the literal `({}, [])` —
when the total selection count is zero, otherwise the populated metrics
and the probability distribution `expert_usage / total_selections`. -/
def calculate_metrics (u : List Nat) : Option Metrics × List Rat :=
  let total := u.sum
  if total = 0 then (none, [])
  else
    let prob := u.map (fun c => (c : Rat) / (total : Rat))
    let top3 := (top3Indices u).map
      (fun i => (i, u.getD i 0, prob.getD i 0))
    (some { top_3_experts := top3
            total_selections := total
            num_experts := u.length }, prob)

/-- A fresh enabled logger configured to log layer `L`: counter 0, nothing
written yet (the state after a successful `__init__` with a writable
path). -/
def freshLogger (L : Int) : MoELogger :=
  ⟨true, true, L, 0, []⟩

/-- Arguments of one `log_routing` call, for sequencing calls. -/
structure BatchCall where
  ids : List (List Nat)
  ws : List (List Rat)
  req : Option String
deriving DecidableEq

/-- Run a sequence of failure-free `log_routing` calls, each at the
configured logged layer. -/
def runBatches (l : MoELogger) (cs : List BatchCall) :
    Except String MoELogger :=
  cs.foldlM (fun s c => s.log_routing s.logged_layer c.ids c.ws c.req noErr) l

/-- The `token_idx` fields of the route records of a stream that carry the
given request id, in stream order. -/
def tokenIdxsFor (rid : String) (lines : List LogLine) : List Nat :=
  lines.filterMap
    (fun line =>
      match line with
      | LogLine.route r => if r.req_id = rid then some r.token_idx else none
      | _ => none)

/-- The `token_idx` of a route line. -/
def lineTokenIdx : LogLine → Option Nat
  | LogLine.route r => some r.token_idx
  | _ => none

/-- The `(id, count)` projection of a metrics record's `top_3_experts`
list (each entry is `(id, count, probability)`; the probability is
`count / total`, so the ranking claims are claims about ids and
counts). -/
def top3IdCounts (m : Metrics) : List (Nat × Nat) :=
  m.top_3_experts.map (fun t => (t.fst, t.snd.fst))

/-- The ranking order asserted by the specification for the top-3 list:
strictly descending count, with ties broken by the LOWER id first. -/
def rankedTiesLowerFirst (l : List (Nat × Nat)) : Prop :=
  List.Pairwise (fun a b => b.snd < a.snd ∨ (a.snd = b.snd ∧ a.fst < b.fst)) l

/-- The tie-order-free part of the ranking: non-increasing raw count,
with no constraint on the relative order of tied counts.  This is the
strongest order guarantee the code gives for arbitrary histogram
lengths, since the tie order of `np.argsort`'s default unstable sort is
unspecified beyond numpy's 16-element insertion-sort cutoff. -/
def rankedCountDescending (l : List (Nat × Nat)) : Prop :=
  List.Pairwise (fun a b => b.snd ≤ a.snd) l

/-- The routes of the specification's histogram test vector:
`topk_ids` sequences `[[0,1],[1,2],[0,0]]`. -/
def exampleRoutes : List RouteRecord :=
  [⟨"r0", 0, 0, [0, 1], []⟩, ⟨"r0", 1, 0, [1, 2], []⟩,
   ⟨"r0", 2, 0, [0, 0], []⟩]

/-! ## Helper lemmas -/

/-- Characterization of the failure-free write loop: when the weights list
covers every row index, it writes one route record per `topk_ids` row, with
consecutive `token_idx` values starting at `k`, and raises nothing. -/
theorem writeLoop_ok (rid : String) (layer : Int) (ws : List (List Rat)) :
    ∀ (ids : List (List Nat)) (k : Nat), k + ids.length ≤ ws.length →
      writeLoop rid layer ws ids k none =
        ((List.range ids.length).map (fun t => LogLine.route
          ⟨rid, k + t, layer, ids.getD t [],
           (ws.getD (k + t) []).map round6⟩), none)
  | [], k, _ => by simp [writeLoop]
  | idsRow :: rest, k, h => by
    have hk : k < ws.length := by
      simp only [List.length_cons] at h
      omega
    have hw : ws[k]? = some (ws.getD k []) := by
      rw [List.getD_eq_getElem?_getD, List.getElem?_eq_getElem hk]
      rfl
    have ih := writeLoop_ok rid layer ws rest (k + 1)
      (by simp only [List.length_cons] at h; omega)
    simp only [writeLoop, hw, Option.map_none', ih, List.length_cons,
      List.range_succ_eq_map, List.map_cons, List.map_map, Prod.mk.injEq,
      List.cons.injEq, Nat.add_zero, List.getD_cons_zero]
    refine ⟨⟨trivial, ?_⟩, trivial⟩
    apply List.map_congr_left
    intro t _
    simp only [Function.comp_apply, List.getD_cons_succ]
    have h1 : k + Nat.succ t = k + 1 + t := by omega
    rw [h1]

/-- A failure-free `log_routing` call at the configured layer on an
enabled logger with a handle: appends one route record per batch row with
`token_idx` equal to the row's ordinal position, mints `r<counter>` when no
request id is supplied (incrementing the counter), and returns normally. -/
theorem log_routing_run (l : MoELogger) (ids : List (List Nat))
    (ws : List (List Rat)) (req : Option String)
    (hen : l.enabled = true) (hh : l.hasHandle = true)
    (hlen : ids.length ≤ ws.length) :
    l.log_routing l.logged_layer ids ws req noErr = Except.ok
      { l with
        request_counter :=
          if req.isNone then l.request_counter + 1 else l.request_counter
        output := l.output ++ (List.range ids.length).map
          (fun t => LogLine.route
            ⟨req.getD ("r" ++ toString l.request_counter), t, l.logged_layer,
             ids.getD t [], (ws.getD t []).map round6⟩) } := by
  have hloop := writeLoop_ok (req.getD ("r" ++ toString l.request_counter))
    l.logged_layer ws ids 0 (by omega)
  simp only [MoELogger.log_routing, hen, hh, Bool.not_true, Bool.or_self,
    Bool.false_eq_true, if_false, bne_self_eq_false, logRoutingAttempt,
    noErr, hloop, Nat.zero_add, if_false, Bool.false_eq_true]

/-- Unfolding the fold of `read_moe_log` over an arbitrary accumulator:
the meta component is the last meta line if there is one (else the
incoming accumulator) and the route records accumulate in stream order. -/
theorem readStep_foldl (lines : List LogLine) :
    ∀ (m0 : Option MetaRecord) (rs0 : List RouteRecord),
      lines.foldl readStep (m0, rs0) =
        ((lastMeta lines).or m0, rs0 ++ routeLines lines)
  | m0, rs0 => by
    induction lines generalizing m0 rs0 with
    | nil => simp [lastMeta, routeLines]
    | cons line rest ih =>
      cases line with
      | meta m =>
        simp only [List.foldl_cons, readStep, ih, lastMeta, routeLines,
          List.filterMap_cons]
        cases h : lastMeta rest <;> simp [h, Option.or]
      | route r =>
        simp only [List.foldl_cons, readStep, ih, lastMeta, routeLines,
          List.filterMap_cons]
        simp [Option.or_none]
      | other =>
        simp only [List.foldl_cons, readStep, ih, lastMeta, routeLines,
          List.filterMap_cons]
        simp [Option.or_none]

/-! ## Claims -/

/-- C1: for every input and every injected serialization or I/O failure,
`log_routing` and `write_meta_header` catch the error and return normally
to the caller — the result is always `Except.ok`, never an escaping
exception. -/
theorem capture_path_never_raises (l : MoELogger) (layer_idx : Int)
    (ids : List (List Nat)) (ws : List (List Rat)) (req : Option String)
    (e : LogErr) (model_id device : String) (top_k num_experts : Nat)
    (seed : Option Int) (vv tv : Option String) (wf ff : Bool) :
    (∃ l₂, l.log_routing layer_idx ids ws req e = Except.ok l₂) ∧
    (∃ l₃, l.write_meta_header model_id top_k num_experts device seed vv tv
      wf ff = Except.ok l₃) := by
  constructor
  · unfold MoELogger.log_routing
    split
    · exact ⟨_, rfl⟩
    · split
      · exact ⟨_, rfl⟩
      · exact ⟨_, rfl⟩
  · unfold MoELogger.write_meta_header
    split
    · exact ⟨_, rfl⟩
    · exact ⟨_, rfl⟩

/-- C2: with no output target configured (`VLLM_LOG_MOE` absent or empty,
both mapping to the empty string), the logger initializes with
`enabled = false`, and for all inputs `write_meta_header` and
`log_routing` return normally with the state — including the output
stream — completely unchanged. -/
theorem no_target_disabled_noop (layerStr : String) (openFails : Bool)
    (layer_idx : Int) (ids : List (List Nat)) (ws : List (List Rat))
    (req : Option String) (e : LogErr) (model_id device : String)
    (top_k num_experts : Nat) (seed : Option Int) (vv tv : Option String)
    (wf ff : Bool) :
    (MoELogger.init "" layerStr openFails).enabled = false ∧
    (MoELogger.init "" layerStr openFails).output = [] ∧
    (MoELogger.init "" layerStr openFails).write_meta_header model_id top_k
        num_experts device seed vv tv wf ff
      = Except.ok (MoELogger.init "" layerStr openFails) ∧
    (MoELogger.init "" layerStr openFails).log_routing layer_idx ids ws req e
      = Except.ok (MoELogger.init "" layerStr openFails) := by
  refine ⟨rfl, rfl, rfl, rfl⟩

/-- The function `lastMeta` distributes over append, later segment taking priority. -/
theorem lastMeta_append (xs ys : List LogLine) :
    lastMeta (xs ++ ys) = (lastMeta ys).or (lastMeta xs) := by
  induction xs with
  | nil => simp [lastMeta, Option.or_none]
  | cons x rest ih =>
    simp only [List.cons_append, lastMeta, List.append_eq, ih,
      Option.or_assoc]

/-- A stream of only route lines has no meta record. -/
theorem lastMeta_map_route (rs : List RouteRecord) :
    lastMeta (rs.map LogLine.route) = none := by
  induction rs with
  | nil => rfl
  | cons r rest ih => simp [lastMeta, ih, Option.or]

/-- The route records of a stream of route lines are the records
themselves. -/
theorem routeLines_map_route (rs : List RouteRecord) :
    routeLines (rs.map LogLine.route) = rs := by
  induction rs with
  | nil => rfl
  | cons r rest ih => simp [routeLines, List.filterMap_cons] at ih ⊢; exact ih

/-- C10: on every stream, `read_moe_log` returns as routes exactly the
`route`-tagged lines in file order and as meta the last `meta`-tagged
line (`None` if there is none); lines with any other tag are skipped and
affect neither component. -/
theorem read_moe_log_spec (lines : List LogLine) :
    read_moe_log lines = (lastMeta lines, routeLines lines) := by
  have h := readStep_foldl lines none []
  simpa [read_moe_log, Option.or_none] using h

/-- C8 counterexample: on a stream that contains no meta record,
`read_moe_log` does not fail with a `MissingHeader` (or any) error — it
returns normally, with `None` as the meta component and the route records
as usual; the claimed analysis-time failure does not exist in the code. -/
theorem read_missing_header_no_failure :
    read_moe_log [LogLine.route ⟨"r0", 0, 0, [0], []⟩]
      = (none, [⟨"r0", 0, 0, [0], []⟩]) := by
  decide

/-- C8 (amended): `read_moe_log` never fails when the stream contains no
meta record: it returns `None` as the meta component exactly in that
case, leaving the missing-header handling to the caller.  It does not
require the meta record to be first — a header placed after all route
records is still found — and it returns the ordered route records. -/
theorem read_header_optional (lines : List LogLine) (m : MetaRecord)
    (rs : List RouteRecord) :
    ((read_moe_log lines).fst = none ↔ lastMeta lines = none) ∧
    (read_moe_log lines).snd = routeLines lines ∧
    read_moe_log (rs.map LogLine.route ++ [LogLine.meta m])
      = (some m, rs) := by
  have h := readStep_foldl lines none []
  have h2 := readStep_foldl (rs.map LogLine.route ++ [LogLine.meta m]) none []
  refine ⟨?_, ?_, ?_⟩
  · simp [read_moe_log, h, Option.or_none]
  · simp [read_moe_log, h, Option.or_none]
  · simp only [read_moe_log, h2, Option.or_none, lastMeta_append,
      lastMeta_map_route, lastMeta, routeLines, List.filterMap_append,
      List.filterMap_cons]
    have h3 := routeLines_map_route rs
    simp only [routeLines] at h3
    simp [h3, Option.or]

/-- Every element of a list of naturals is bounded by the running
`foldl max`, and the seed is too. -/
theorem foldl_max_bounds (ids : List Nat) :
    ∀ (a : Nat), (∀ x ∈ ids, x ≤ ids.foldl max a) ∧ a ≤ ids.foldl max a := by
  induction ids with
  | nil =>
    intro a
    exact ⟨fun x hx => (List.not_mem_nil x hx).elim, Nat.le_refl a⟩
  | cons y rest ih =>
    intro a
    have ⟨ihmem, ihseed⟩ := ih (max a y)
    refine ⟨?_, ?_⟩
    · intro x hx
      rcases List.mem_cons.mp hx with rfl | hx
      · exact Nat.le_trans (Nat.le_trans (Nat.le_max_right a x) ihseed)
          (Nat.le_refl _)
      · exact ihmem x hx
    · exact Nat.le_trans (Nat.le_max_left a y) ihseed

/-- C4: `analyze_expert_usage` builds the dense histogram: its length is
`max(observed id) + 1` (0 when nothing was observed, so an empty route
sequence yields an empty histogram rather than an error), entry `i`
counts the occurrences of id `i` across all records' `topk_ids`, and the
specification's test vector `[[0,1],[1,2],[0,0]]` yields `{0:3, 1:2,
2:1}`. -/
theorem histogram_spec (routes : List RouteRecord) :
    (analyze_expert_usage routes).length =
      (if allExpertIds routes = [] then 0
       else maxExpertId (allExpertIds routes) + 1) ∧
    (∀ i : Nat, (analyze_expert_usage routes).getD i 0
      = (allExpertIds routes).count i) ∧
    analyze_expert_usage exampleRoutes = [3, 2, 1] := by
  refine ⟨?_, ?_, by decide⟩
  · simp [analyze_expert_usage, List.isEmpty_iff]
  · intro i
    by_cases hemp : allExpertIds routes = []
    · simp [analyze_expert_usage, hemp, List.getD]
    · have hlen : (analyze_expert_usage routes).length
          = maxExpertId (allExpertIds routes) + 1 := by
        simp [analyze_expert_usage, List.isEmpty_iff, hemp]
      by_cases hi : i < maxExpertId (allExpertIds routes) + 1
      · simp [analyze_expert_usage, List.isEmpty_iff, hemp,
          List.getD_eq_getElem?_getD, List.getElem?_map,
          List.getElem?_range hi]
      · have hcount : (allExpertIds routes).count i = 0 := by
          rw [List.count_eq_zero]
          intro hmem
          exact hi (Nat.lt_succ_of_le
            ((foldl_max_bounds (allExpertIds routes) 0).1 i hmem))
        have hout : (analyze_expert_usage routes).getD i 0 = 0 := by
          rw [List.getD_eq_getElem?_getD, List.getElem?_eq_none]
          · rfl
          · rw [hlen]; omega
        rw [hout, hcount]

/-- Rounding an integer-valued rational is the identity. -/
theorem roundHalfEven_natCast (n : Nat) : roundHalfEven (n : Rat) = n := by
  unfold roundHalfEven
  have hf : Rat.floor (n : Rat) = (n : Int) := by
    rw [show Rat.floor (n : Rat) = ⌊(n : Rat)⌋ from rfl]
    exact Int.floor_natCast n
  rw [hf]
  simp

/-- Evaluation of `round6` on a rational that is an exact multiple of `10⁻⁶`. -/
theorem round6_eval (w : Rat) (n : Nat) (h : w * 1000000 = (n : Rat)) :
    round6 w = Rat.divInt (n : Int) 1000000 := by
  unfold round6
  rw [h, roundHalfEven_natCast]

/-- Fact that `round(0.7, 6) = 0.7` over exact rationals. -/
theorem round6_seven_tenths : round6 (7/10) = 7/10 := by
  rw [round6_eval (7/10) 700000 (by norm_num), Rat.divInt_eq_div]
  norm_num

/-- Fact that `round(0.3, 6) = 0.3` over exact rationals. -/
theorem round6_three_tenths : round6 (3/10) = 3/10 := by
  rw [round6_eval (3/10) 300000 (by norm_num), Rat.divInt_eq_div]
  norm_num

/-- C5: on a fresh enabled logger (`request_counter = 0`, nothing yet
written), one `log_routing` call at the configured logged layer with
`topk_ids=[[2,0]]`, `topk_weights=[[0.7,0.3]]` and no supplied request id
emits exactly one route record with `req_id="r0"`, `token_idx=0`,
`topk_ids=[2,0]`, `topk_weights=[0.7,0.3]` (0.7 and 0.3 are exact at six
decimals, so rounding returns them unchanged), and leaves the counter
at 1. -/
theorem fresh_batch_scenario (l : MoELogger)
    (hen : l.enabled = true) (hh : l.hasHandle = true)
    (hc : l.request_counter = 0) (hout : l.output = []) :
    l.log_routing l.logged_layer [[2, 0]] [[7/10, 3/10]] none noErr
      = Except.ok { l with
          request_counter := 1
          output := [LogLine.route
            ⟨"r0", 0, l.logged_layer, [2, 0], [7/10, 3/10]⟩] } := by
  rw [log_routing_run l [[2, 0]] [[7/10, 3/10]] none hen hh (by simp), hc,
    hout]
  simp [List.range_succ, round6_seven_tenths, round6_three_tenths]
  decide

/-- Witness for C5 at the fresh logger for layer 0. -/
theorem fresh_batch_scenario_witness :
    (freshLogger 0).enabled = true ∧ (freshLogger 0).hasHandle = true ∧
    (freshLogger 0).request_counter = 0 ∧ (freshLogger 0).output = [] ∧
    (freshLogger 0).log_routing (freshLogger 0).logged_layer [[2, 0]]
        [[7/10, 3/10]] none noErr
      = Except.ok { freshLogger 0 with
          request_counter := 1
          output := [LogLine.route
            ⟨"r0", 0, (freshLogger 0).logged_layer, [2, 0],
             [7/10, 3/10]⟩] } :=
  ⟨rfl, rfl, rfl, rfl, fresh_batch_scenario (freshLogger 0) rfl rfl rfl rfl⟩

/-- C9 counterexample: two `log_routing` calls carrying the same supplied
request id `"a"`, two tokens each, leave request `"a"` with the
`token_idx` sequence `[0, 1, 0, 1]` — not monotonically increasing
across the request's records, because the ordinal restarts at 0 on every
call. -/
theorem token_idx_not_monotone_across_calls :
    ((runBatches (freshLogger 0)
        [⟨[[0], [0]], [[1/2], [1/2]], some "a"⟩,
         ⟨[[0], [0]], [[1/2], [1/2]], some "a"⟩]).toOption.map
      (fun l => tokenIdxsFor "a" l.output)) = some [0, 1, 0, 1] ∧
    ¬ List.Pairwise (fun a b => a ≤ b) ([0, 1, 0, 1] : List Nat) := by
  constructor
  · decide
  · decide

/-- C9 (amended): `token_idx` is zero-based and increasing within the
records of a single `log_routing` call — a failure-free call at the
logged layer appends records whose `token_idx` sequence is exactly
`0, 1, …, n-1`, the ordinal row position in the batch — but a later call
restarts at 0 even for the same request id. -/
theorem token_idx_zero_based_per_call (l : MoELogger)
    (ids : List (List Nat)) (ws : List (List Rat)) (req : Option String)
    (hen : l.enabled = true) (hh : l.hasHandle = true)
    (hlen : ids.length ≤ ws.length) :
    ∃ l₂, l.log_routing l.logged_layer ids ws req noErr = Except.ok l₂ ∧
      (l₂.output.drop l.output.length).filterMap lineTokenIdx
        = List.range ids.length := by
  refine ⟨_, log_routing_run l ids ws req hen hh hlen, ?_⟩
  simp only [List.drop_left, List.filterMap_map]
  have : (lineTokenIdx ∘ fun t => LogLine.route
      ⟨req.getD ("r" ++ toString l.request_counter), t, l.logged_layer,
       ids.getD t [], (ws.getD t []).map round6⟩) = fun t => some t := by
    funext t
    rfl
  rw [this]
  exact List.filterMap_some _

/-- Witness for the amended C9 at a fresh logger with a two-row batch. -/
theorem token_idx_zero_based_per_call_witness :
    (freshLogger 0).enabled = true ∧ (freshLogger 0).hasHandle = true ∧
    ([[0], [0]] : List (List Nat)).length
        ≤ ([[1/2], [1/2]] : List (List Rat)).length ∧
    ∃ l₂, (freshLogger 0).log_routing (freshLogger 0).logged_layer
          [[0], [0]] [[1/2], [1/2]] (some "a") noErr = Except.ok l₂ ∧
        (l₂.output.drop (freshLogger 0).output.length).filterMap lineTokenIdx
          = List.range 2 :=
  ⟨rfl, rfl, by decide, token_idx_zero_based_per_call (freshLogger 0)
    [[0], [0]] [[1/2], [1/2]] (some "a") rfl rfl (by decide)⟩

/-- C6 counterexample: with zero total selections (here: the histogram of
an empty route sequence) `calculate_metrics` returns the literal empty
result `({}, [])` — modelled `(none, [])` — which carries no
`total_selections` field and no normalized-entropy field at all, rather
than a populated metrics record with `total_selections = 0` and
normalized entropy 0.  (It does return normally, without raising.) -/
theorem zero_data_returns_empty_dict :
    calculate_metrics (analyze_expert_usage []) = (none, []) ∧
    (calculate_metrics (analyze_expert_usage [])).fst.isSome = false := by
  constructor
  · decide
  · decide

/-- C6 (amended): when total selections is zero, `calculate_metrics`
returns normally with the empty no-data result `({}, [])`: no division is
attempted and no exception or NaN can arise, but the result contains no
metric fields (in particular neither `total_selections` nor a normalized
entropy entry). -/
theorem zero_data_guard (u : List Nat) (h : u.sum = 0) :
    calculate_metrics u = (none, []) := by
  simp [calculate_metrics, h]

/-- Witness for the amended C6 on an all-zero two-expert histogram. -/
theorem zero_data_guard_witness :
    ([0, 0] : List Nat).sum = 0 ∧ calculate_metrics [0, 0] = (none, []) :=
  ⟨by decide, zero_data_guard [0, 0] (by decide)⟩

/-- The argsort comparison (value, then index) is total. -/
theorem argsortLe_total (u : List Nat) (i j : Nat) :
    argsortLe u i j = true ∨ argsortLe u j i = true := by
  simp only [argsortLe, Bool.or_eq_true, Bool.and_eq_true, beq_iff_eq,
    decide_eq_true_eq]
  omega

/-- The argsort comparison is transitive. -/
theorem argsortLe_trans (u : List Nat) (i j k : Nat)
    (h1 : argsortLe u i j = true) (h2 : argsortLe u j k = true) :
    argsortLe u i k = true := by
  simp only [argsortLe, Bool.or_eq_true, Bool.and_eq_true, beq_iff_eq,
    decide_eq_true_eq] at h1 h2 ⊢
  omega

/-- The ascending argsort output is pairwise ordered by its comparison. -/
theorem argsort_pairwise (u : List Nat) :
    List.Pairwise (fun i j => argsortLe u i j = true) (argsort u) := by
  haveI : IsTotal Nat (fun i j => argsortLe u i j = true) :=
    ⟨fun i j => argsortLe_total u i j⟩
  haveI : IsTrans Nat (fun i j => argsortLe u i j = true) :=
    ⟨fun i j k => argsortLe_trans u i j k⟩
  exact List.sorted_insertionSort _ _

/-- The argsort output carries no duplicate index. -/
theorem argsort_nodup (u : List Nat) : (argsort u).Nodup :=
  ((List.perm_insertionSort _ _).nodup_iff).mpr (List.nodup_range _)

/-- In the model, the top-3 index list (`argsort[-3:][::-1]`) is
pairwise strictly descending in (count, id) lexicographic order.  The
id component of this order is an artifact of the model's determinized
tie rule (see `argsortLe`); downstream theorems keep only its
tie-order-free consequence, non-increasing counts, when quantifying
over all histograms. -/
theorem top3Indices_pairwise (u : List Nat) :
    List.Pairwise (fun i j => u.getD j 0 < u.getD i 0 ∨
      (u.getD i 0 = u.getD j 0 ∧ j < i)) (top3Indices u) := by
  unfold top3Indices
  rw [List.pairwise_reverse]
  have hdrop := List.drop_sublist ((argsort u).length - 3) (argsort u)
  have hp := List.Pairwise.sublist hdrop (argsort_pairwise u)
  have hn := List.Pairwise.sublist hdrop (argsort_nodup u)
  have hcomb := hp.and hn
  refine hcomb.imp ?_
  intro a b hab
  obtain ⟨hle, hne⟩ := hab
  simp only [argsortLe, Bool.or_eq_true, Bool.and_eq_true, beq_iff_eq,
    decide_eq_true_eq] at hle
  omega

/-- C7 counterexample: on the histogram `{0:5, 1:5, 2:3}` the code
returns the top-3 list `[(1,5,·), (0,5,·), (2,3,·)]` — the tied experts
0 and 1 appear with the HIGHER id first (the stable ascending argsort
puts index 0 before index 1, and the final reversal flips them), so the
claimed lower-id-first tie-breaking does not hold. -/
theorem top3_tie_order_counterexample :
    (calculate_metrics [5, 5, 3]).fst.map top3IdCounts
      = some [(1, 5), (0, 5), (2, 3)] ∧
    ¬ rankedTiesLowerFirst [(1, 5), (0, 5), (2, 3)] := by
  constructor
  · decide
  · unfold rankedTiesLowerFirst
    decide

/-- C7 (amended): for every histogram with at least one selection, the
top-3 experts are ranked in non-increasing raw count order; the relative
order of tied counts is not guaranteed in general (numpy's default
argsort is unstable beyond its 16-element insertion-sort cutoff, and the
histograms this repository produces can be longer).  On the
specification's concrete counts `{0:5, 1:5, 2:3}` — a 3-element array,
where numpy's stable insertion-sort path applies and the model matches
it exactly — the returned top-3 is `[1, 0, 2]`: the tied experts 0 and 1
with the higher id first, then expert 2, so the set {0, 1, 2} is
included. -/
theorem top3_ranking (u : List Nat) (h : ¬ u.sum = 0) :
    rankedCountDescending
      (((calculate_metrics u).fst.map top3IdCounts).getD []) ∧
    (calculate_metrics [5, 5, 3]).fst.map top3IdCounts
      = some [(1, 5), (0, 5), (2, 3)] := by
  refine ⟨?_, by decide⟩
  unfold calculate_metrics
  simp only [h, if_false, Option.map_some', Option.getD_some]
  unfold top3IdCounts rankedCountDescending
  simp only [List.map_map, List.pairwise_map, Function.comp_apply]
  refine (top3Indices_pairwise u).imp ?_
  intro a b hab
  rcases hab with h1 | ⟨h1, _⟩
  · omega
  · omega

/-- Witness for the amended C7 on the histogram `{0:5, 1:5, 2:3}`. -/
theorem top3_ranking_witness :
    ¬ ([5, 5, 3] : List Nat).sum = 0 ∧
    (rankedCountDescending
        (((calculate_metrics [5, 5, 3]).fst.map top3IdCounts).getD []) ∧
     (calculate_metrics [5, 5, 3]).fst.map top3IdCounts
        = some [(1, 5), (0, 5), (2, 3)]) :=
  ⟨by decide, top3_ranking [5, 5, 3] (by decide)⟩

/-- Running a sequence of failure-free batch calls on an enabled logger
with a handle succeeds and appends exactly one route line per batch row,
preserving the enabled state. -/
theorem runBatches_ok (cs : List BatchCall) :
    ∀ (l : MoELogger), l.enabled = true → l.hasHandle = true →
      (∀ c ∈ cs, c.ids.length ≤ c.ws.length) →
      ∃ (l₂ : MoELogger) (new : List RouteRecord),
        runBatches l cs = Except.ok l₂ ∧
        l₂.enabled = true ∧ l₂.hasHandle = true ∧
        l₂.output = l.output ++ new.map LogLine.route ∧
        new.length = (cs.map (fun c => c.ids.length)).sum := by
  induction cs with
  | nil =>
    intro l hen hh _
    exact ⟨l, [], rfl, hen, hh, by simp, by simp [runBatches]⟩
  | cons c rest ih =>
    intro l hen hh hws
    have hc := hws c (List.mem_cons_self c rest)
    have hrun := log_routing_run l c.ids c.ws c.req hen hh hc
    obtain ⟨l₂, new, hrb, hen2, hh2, hout2, hlen2⟩ := ih
      { l with
        request_counter := if c.req.isNone then l.request_counter + 1
          else l.request_counter
        output := l.output ++ (List.range c.ids.length).map
          (fun t => LogLine.route
            ⟨c.req.getD ("r" ++ toString l.request_counter), t,
             l.logged_layer, c.ids.getD t [], (c.ws.getD t []).map round6⟩) }
      hen hh (fun d hd => hws d (List.mem_cons_of_mem c hd))
    refine ⟨l₂, (List.range c.ids.length).map
      (fun t => (⟨c.req.getD ("r" ++ toString l.request_counter), t,
        l.logged_layer, c.ids.getD t [], (c.ws.getD t []).map round6⟩ :
        RouteRecord)) ++ new, ?_, hen2, hh2, ?_, ?_⟩
    · simp only [runBatches, List.foldlM_cons] at hrb ⊢
      rw [hrun]
      exact hrb
    · rw [hout2]
      simp [List.map_append, List.map_map, List.append_assoc,
        Function.comp]
    · simp [hlen2]

/-- C3: writing a header on a fresh enabled logger and then any sequence
of failure-free route batches, and parsing the resulting stream with
`read_moe_log`, reproduces the same header fields and exactly N route
records — one per batch row, in the original written order (the output
stream is precisely the header line followed by the parsed route records
in order). -/
theorem round_trip (L : Int) (model_id device : String)
    (top_k num_experts : Nat) (seed : Option Int) (vv tv : Option String)
    (cs : List BatchCall)
    (hws : ∀ c ∈ cs, c.ids.length ≤ c.ws.length) :
    ∃ l₁ l₂ rs,
      (freshLogger L).write_meta_header model_id top_k num_experts device
          seed vv tv false false = Except.ok l₁ ∧
      runBatches l₁ cs = Except.ok l₂ ∧
      read_moe_log l₂.output
        = (some (mkMeta (freshLogger L) model_id top_k num_experts device
            seed vv tv), rs) ∧
      l₂.output = LogLine.meta (mkMeta (freshLogger L) model_id top_k
          num_experts device seed vv tv) :: rs.map LogLine.route ∧
      rs.length = (cs.map (fun c => c.ids.length)).sum := by
  obtain ⟨l₂, new, hrb, hen2, hh2, hout, hlen⟩ := runBatches_ok cs
    { freshLogger L with output := [LogLine.meta (mkMeta (freshLogger L)
        model_id top_k num_experts device seed vv tv)] } rfl rfl hws
  refine ⟨_, l₂, new, rfl, hrb, ?_, ?_, hlen⟩
  · rw [hout]
    simp only [List.singleton_append, read_moe_log, readStep_foldl,
      lastMeta, lastMeta_map_route, List.nil_append, Option.or_none]
    have h3 := routeLines_map_route new
    simp only [routeLines] at h3
    simp [routeLines, List.filterMap_cons, h3, Option.or]
  · rw [hout]
    simp [List.singleton_append]

/-- Witness for C3: header plus a single one-row batch. -/
theorem round_trip_witness :
    (∀ c ∈ ([⟨[[0]], [[1/2]], none⟩] : List BatchCall),
      c.ids.length ≤ c.ws.length) ∧
    (∃ l₁ l₂ rs,
      (freshLogger 0).write_meta_header "m" 1 4 "cuda" none
          (some "v") (some "t") false false = Except.ok l₁ ∧
      runBatches l₁ [⟨[[0]], [[1/2]], none⟩] = Except.ok l₂ ∧
      read_moe_log l₂.output
        = (some (mkMeta (freshLogger 0) "m" 1 4 "cuda" none (some "v")
            (some "t")), rs) ∧
      l₂.output = LogLine.meta (mkMeta (freshLogger 0) "m" 1 4 "cuda" none
          (some "v") (some "t")) :: rs.map LogLine.route ∧
      rs.length = (([⟨[[0]], [[1/2]], none⟩] : List BatchCall).map
        (fun c => c.ids.length)).sum) :=
  ⟨by decide, round_trip 0 "m" "cuda" 1 4 none (some "v") (some "t")
    [⟨[[0]], [[1/2]], none⟩] (by decide)⟩
